import Mathlib

/-!
Verification of the FrauElster/proxy repository: a shallow embedding of the
target registry, proxy core (request forwarding and HTML link rewriting),
stealth transport (header defaulting, pacing, lazy SOCKS5 initialization,
compression transparency) and the compression codec bridge, together with
theorems settling the specification's claims about them.

Go strings are modelled as `List Char` (`GoStr`); Go byte slices that hold
response bodies are modelled with the same type.  Go `time.Duration` and
`time.Time` are modelled as `Int` nanosecond counts.  External library
calls (gzip/flate/brotli codecs, goquery HTML parse/serialize, the SOCKS5
dialer constructor, the underlying `http.Transport`) are modelled as
explicit functional parameters, while every piece of logic written in the
repository itself is translated directly from the source.
-/

namespace FEProxy

/-- Go strings, modelled as lists of characters. -/
abbrev GoStr := List Char

/-- Coerce a Lean string literal to the `GoStr` model. -/
def str (s : String) : GoStr := s.data

/-- Embedding of Go `strings.HasPrefix s pre`. -/
def goHasPref : GoStr → GoStr → Bool
  | _, [] => true
  | [], _ :: _ => false
  | c :: s, p :: ps => decide (c = p) && goHasPref s ps

/-- Embedding of Go `strings.HasSuffix s suf`. -/
def goHasSuf (s suf : GoStr) : Bool :=
  goHasPref s.reverse suf.reverse

/-- Embedding of Go `strings.TrimPrefix s pre`: drops `pre` when it is a
leading segment of `s`, otherwise returns `s` unchanged. -/
def goTrimPref (s pre : GoStr) : GoStr :=
  if goHasPref s pre then s.drop pre.length else s

/-- Embedding of Go `strings.TrimSuffix s suf`. -/
def goTrimSuf (s suf : GoStr) : GoStr :=
  if goHasSuf s suf then s.take (s.length - suf.length) else s

/-- Embedding of Go `strings.Contains s sub`. -/
def goContains : GoStr → GoStr → Bool
  | [], sub => goHasPref [] sub
  | c :: t, sub => goHasPref (c :: t) sub || goContains t sub

/-- First split of `s` around separator `sep`: the part before the first
occurrence and the part after it. `none` when `sep` does not occur. -/
def splitFirst : GoStr → GoStr → Option (GoStr × GoStr)
  | s, sep =>
    if goHasPref s sep then some ([], s.drop sep.length)
    else match s with
      | [] => none
      | c :: t => (splitFirst t sep).map (fun p => (c :: p.1, p.2))

/-- Embedding of `internal.JoinUrl` (internal/url.go): every element after
the first is stripped of a leading `/`, every element before the last is
stripped of a trailing `/`, and the results are joined with `/`.  The Go
loop applies `TrimPrefix` before `TrimSuffix`; the recursion here performs
the same per-index processing and the same `strings.Join`; this function
handles the elements after the first. -/
def joinUrlRest : List GoStr → GoStr
  | [] => []
  | [e] => goTrimPref e (str "/")
  | e :: rest =>
      goTrimSuf (goTrimPref e (str "/")) (str "/") ++ str "/" ++ joinUrlRest rest

/-- Embedding of `internal.JoinUrl` for the whole element list; see
`joinUrlRest` for the processing of the elements after the first. -/
def joinUrl : List GoStr → GoStr
  | [] => []
  | [e] => e
  | e :: rest => goTrimSuf e (str "/") ++ str "/" ++ joinUrlRest rest

/-- The subset of Go `net/url.URL` used by the repository: scheme, host and
path (query and fragment never influence the verified logic). -/
structure Url where
  scheme : GoStr
  host : GoStr
  path : GoStr
deriving DecidableEq

/-- Embedding of `net/url.URL.String` restricted to the scheme/host/path
subset: `scheme "://" host path`, with a `/` inserted before a non-empty
relative path when a host is present (as Go's `URL.String` does).  None of
the concrete paths produced in this development require percent-escaping,
so `EscapedPath` is modelled as the identity. -/
def urlString (u : Url) : GoStr :=
  u.scheme ++ str "://" ++ u.host ++
    (if u.path ≠ [] && !goHasPref u.path (str "/") && u.host ≠ [] then str "/" else []) ++
    u.path

/-- True when the string contains an ASCII control character, which Go's
`net/url.Parse` rejects. -/
def hasCtlChar (s : GoStr) : Bool :=
  s.any (fun c => decide (c.toNat < 32) || decide (c.toNat = 127))

/-- Embedding of Go `net/url.Parse` restricted to the behavior the
repository relies on: parsing fails exactly on control characters and on a
leading `:` (Go's "missing protocol scheme"); an input containing `://` is
split into scheme, host (up to the next `/`) and path; any other input
parses successfully as a bare path with empty scheme and host, which is
Go's behavior on strings such as `example.com`. -/
def urlParse (s : GoStr) : Except GoStr Url :=
  if hasCtlChar s then .error (str "net/url: invalid control character in URL")
  else if goHasPref s (str ":") then .error (str "missing protocol scheme")
  else
    match splitFirst s (str "://") with
    | some (scheme, rest) =>
        .ok { scheme := scheme
              host := rest.takeWhile (fun c => decide (c ≠ '/'))
              path := rest.dropWhile (fun c => decide (c ≠ '/')) }
    | none => .ok { scheme := [], host := [], path := s }

/-- Headers are ordered key/value pairs; a key may occur several times, as
in Go's `http.Header` once values are flattened in insertion order.  All
header keys used by the repository are written in canonical MIME form at
every call site, so MIME canonicalization is not modelled. -/
abbrev Headers := List (GoStr × GoStr)

/-- Embedding of `http.Header.Get`: first value for the key, `""` when
absent. -/
def headerGet : Headers → GoStr → GoStr
  | [], _ => []
  | (k, v) :: rest, key => if k = key then v else headerGet rest key

/-- Embedding of `http.Header.Del`: removes every value for the key. -/
def headerDel (hs : Headers) (key : GoStr) : Headers :=
  hs.filter (fun p => decide (p.1 ≠ key))

/-- Embedding of `http.Header.Set`: replaces every value for the key with
the single given value. -/
def headerSet (hs : Headers) (key v : GoStr) : Headers :=
  headerDel hs key ++ [(key, v)]

/-- Embedding of `http.Header.Add`: appends one more value for the key,
leaving existing values (and hence `Get`'s result) intact. -/
def headerAdd (hs : Headers) (key v : GoStr) : Headers :=
  hs ++ [(key, v)]

/-- One HTML element matched by the rewriter's selector
`a[href], img[src], link[href], script[src]` (unnamed/part_001, `copyBody`):
only its `href` and `src` attributes influence the rewrite, so only those
are modelled.  goquery's parse and serialize are external library calls;
the element list stands for the parsed DOM in document order. -/
structure Elem where
  href : Option GoStr
  src : Option GoStr
deriving DecidableEq

/-- The subset of Go `http.Request` the repository reads or writes:
method, URL, headers, body bytes and the `Close` flag. -/
structure Request where
  method : GoStr
  url : Url
  headers : Headers
  body : GoStr
  close : Bool

/-- The subset of Go `http.Response` the repository reads or writes:
status code, headers, body bytes, `ContentLength`, and — for bodies whose
`Content-Type` is HTML — the parsed DOM standing in for goquery's parse of
the body bytes. -/
structure Response where
  status : Nat
  headers : Headers
  body : GoStr
  contentLength : Int
  htmlDoc : Option (List Elem)

/-- One external compression codec (gzip, flate or brotli from Go's
libraries): a total compressor (writing into a `bytes.Buffer` cannot fail)
and a decompressor that may fail (bad header / corrupt stream). -/
structure Codec where
  comp : GoStr → GoStr
  decomp : GoStr → Except GoStr GoStr

/-- Embedding of `compressionFromString` (compression.go:23-34): the
`Content-Encoding` value is matched by substring containment against
`"gzip"`, then `"deflate"`, then `"br"`, first match winning; no match
yields the empty `SupportedCompression`. -/
def compressionFromString (encoding : GoStr) : GoStr :=
  if goContains encoding (str "gzip") then str "gzip"
  else if goContains encoding (str "deflate") then str "deflate"
  else if goContains encoding (str "br") then str "br"
  else []

/-- Embedding of `decompressResponse` (compression.go:36-75): a no-op when
`Content-Encoding` is unset; otherwise the codec selected by
`compressionFromString` decompresses the body, the body is replaced, the
`Content-Encoding` header is deleted and `ContentLength` is updated; an
unmatched token is an error.  The three codecs are passed explicitly. -/
def decompressResponse (gz fl br : Codec) (res : Response) : Except GoStr Response :=
  let encHeader := headerGet res.headers (str "Content-Encoding")
  if encHeader = [] then .ok res
  else
    let encoding := compressionFromString encHeader
    let decompressed : Except GoStr GoStr :=
      if encoding = str "gzip" then gz.decomp res.body
      else if encoding = str "deflate" then fl.decomp res.body
      else if encoding = str "br" then br.decomp res.body
      else .error (str "unknown compression type: " ++ encHeader)
    match decompressed with
    | .error e => .error e
    | .ok body =>
        .ok { res with
                body := body
                headers := headerDel res.headers (str "Content-Encoding")
                contentLength := (body.length : Int) }

/-- Embedding of `compressBody` (compression.go:77-104): the codec is
selected by an exact match of the `SupportedCompression` value (unlike
`compressionFromString`'s substring match); an unmatched value is an
error; writing into the in-memory buffer cannot fail. -/
def compressBody (gz fl br : Codec) (body : GoStr) (encoding : GoStr) : Except GoStr GoStr :=
  if encoding = str "gzip" then .ok (gz.comp body)
  else if encoding = str "deflate" then .ok (fl.comp body)
  else if encoding = str "br" then .ok (br.comp body)
  else .error (str "unknown compression type: " ++ encoding)

/-- The configuration fields of `stealthTransport` (stealthTransport.go:13-36).
`socksAuth` carries no observable behavior beyond being handed to the
external dialer constructor, so it is not modelled. -/
structure StealthConfig where
  userAgents : List GoStr
  minDelay : Int
  maxDelay : Int
  socks5Proxy : GoStr
  compression : Bool

/-- The mutable fields of `stealthTransport`: the last-dispatch timestamp
(nanoseconds), the SOCKS5-initialized flag, and whether a SOCKS5 dial
function has been installed on the underlying transport. -/
structure StealthState where
  lastRequest : Int
  socks5Initialized : Bool
  dialSet : Bool

/-- The ambient effects one `RoundTrip` call draws on: the two random
draws (`rand.Intn` for the user agent, `rand.Int63n` for the pacing
delay), the current wall-clock time, the result of the external
`goProxy.SOCKS5` dialer constructor, and the underlying transport. -/
structure Env where
  uaPick : Nat
  delayPick : Nat
  now : Int
  socksOk : Except GoStr Unit
  transport : Request → Except GoStr Response

/-- Outcome of one `RoundTrip` call: a Go panic (`rand.Int63n` with a
non-positive bound), an error return, or a response. -/
inductive RtResult where
  | panicked
  | err (e : GoStr)
  | ok (r : Response)

/-- Full observable effect of one `RoundTrip` call: its outcome, the
transport state afterwards, the caller's request after in-place header
mutation, and the request handed to the underlying transport (`none` when
the dispatch was never reached). -/
structure RtOut where
  result : RtResult
  state : StealthState
  finalReq : Request
  sent : Option Request

/-- Embedding of `addHeaderIfNotExists` (stealthTransport.go:146-150):
sets the header only when `Get` returns the empty string. -/
def addHeaderIfNotExists (req : Request) (key v : GoStr) : Request :=
  if headerGet req.headers key = [] then
    { req with headers := headerSet req.headers key v }
  else req

/-- Embedding of Go `rand.Int63n`-style draws: `rand.Int63n n` panics
(`none`) when `n ≤ 0` and otherwise returns a value in `[0, n)`, here
determined by the environment's draw `pick` reduced modulo `n`. -/
def int63n (pick : Nat) (n : Int) : Option Int :=
  if n ≤ 0 then none else some ((pick : Int) % n)

/-- The user-agent step of `RoundTrip` (stealthTransport.go:87-90): when
the configured list is non-empty, a random element becomes the default
`User-Agent` — set only if the caller supplied none. -/
def applyUA (cfg : StealthConfig) (env : Env) (req : Request) : Request :=
  if cfg.userAgents.length > 0 then
    addHeaderIfNotExists req (str "User-Agent")
      (cfg.userAgents.getD (env.uaPick % cfg.userAgents.length) [])
  else req

/-- The six canned default headers of `RoundTrip`
(stealthTransport.go:93-98), in source order. -/
def cannedHeaderList : List (GoStr × GoStr) :=
  [ (str "Accept-Language", str "de-DE,de;q=0.9,en-US;q=0.8,en;q=0.7")
  , (str "Accept", str "*/*")
  , (str "Connection", str "keep-alive")
  , (str "Cache-Control", str "no-cache")
  , (str "Pragma", str "no-cache")
  , (str "DNT", str "1") ]

/-- The six consecutive `addHeaderIfNotExists` calls of
stealthTransport.go:93-98, expressed as a fold over `cannedHeaderList`. -/
def applyCanned (req : Request) : Request :=
  cannedHeaderList.foldl (fun r kv => addHeaderIfNotExists r kv.1 kv.2) req

/-- The request after the user-agent step and the six canned defaults
(stealthTransport.go:87-98). -/
def reqAfterCanned (cfg : StealthConfig) (env : Env) (req0 : Request) : Request :=
  applyCanned (applyUA cfg env req0)

/-- The `hadCompression` flag of stealthTransport.go:101: whether the
request carries an `Accept-Encoding` header after the canned defaults
(which never touch that key, so in effect: whether the caller supplied
one). -/
def hadCompressionOf (cfg : StealthConfig) (env : Env) (req0 : Request) : Bool :=
  !(headerGet (reqAfterCanned cfg env req0).headers (str "Accept-Encoding") = [])

/-- The header-mutation phase of `RoundTrip` (stealthTransport.go:86-105)
in source order: random user agent, six canned defaults, then
`Accept-Encoding` when compression is enabled and the caller supplied
none.  Returns the mutated request and the `hadCompression` flag read
before the `Accept-Encoding` mutation. -/
def headerPhase (cfg : StealthConfig) (env : Env) (req0 : Request) : Request × Bool :=
  (if cfg.compression && !hadCompressionOf cfg env req0 then
     { reqAfterCanned cfg env req0 with
         headers := headerSet (reqAfterCanned cfg env req0).headers
           (str "Accept-Encoding") (str "gzip, deflate, br") }
   else reqAfterCanned cfg env req0,
   hadCompressionOf cfg env req0)

/-- The pacing step of `RoundTrip` (stealthTransport.go:119-126): when
both delays are positive, draw `rand.Int63n (maxDelay - minDelay)` —
which panics (`none`) when that difference is not positive — add
`minDelay`, and sleep out the remainder of the wanted delay; the result
is the wall-clock instant at which `t.lastRequest = time.Now()` runs. -/
def pacedTime (cfg : StealthConfig) (env : Env) (st : StealthState) : Option Int :=
  if cfg.minDelay > 0 && cfg.maxDelay > 0 then
    match int63n env.delayPick (cfg.maxDelay - cfg.minDelay) with
    | none => none
    | some r =>
        if env.now - st.lastRequest < r + cfg.minDelay then
          some (env.now + (r + cfg.minDelay - (env.now - st.lastRequest)))
        else some env.now
  else some env.now

/-- The tail of `RoundTrip` after SOCKS5 initialization
(stealthTransport.go:119-143): pacing (with the `rand.Int63n` panic when
`maxDelay - minDelay ≤ 0`), the `lastRequest` update at dispatch time, the
underlying dispatch, and the conditional decompression of the response. -/
def roundTripRest (cfg : StealthConfig) (gz fl br : Codec) (env : Env)
    (st : StealthState) (req : Request) (hadCompression : Bool) : RtOut :=
  match pacedTime cfg env st with
  | none => { result := .panicked, state := st, finalReq := req, sent := none }
  | some dispatchTime =>
      match env.transport req with
      | .error e =>
          { result := .err e, state := { st with lastRequest := dispatchTime }
            finalReq := req, sent := some req }
      | .ok res =>
          if cfg.compression && !hadCompression
              && !(headerGet res.headers (str "Content-Encoding") = []) then
            match decompressResponse gz fl br res with
            | .error e =>
                { result := .err e, state := { st with lastRequest := dispatchTime }
                  finalReq := req, sent := some req }
            | .ok res2 =>
                { result := .ok res2, state := { st with lastRequest := dispatchTime }
                  finalReq := req, sent := some req }
          else
            { result := .ok res, state := { st with lastRequest := dispatchTime }
              finalReq := req, sent := some req }

/-- Embedding of `stealthTransport.RoundTrip` (stealthTransport.go:85-144):
header phase, then lazy SOCKS5 initialization (construction failure
returns an error with all transport state unchanged; success installs the
dial function and sets the flag), then `roundTripRest`. -/
def RoundTrip (cfg : StealthConfig) (gz fl br : Codec) (env : Env)
    (st : StealthState) (req0 : Request) : RtOut :=
  if cfg.socks5Proxy ≠ [] && !st.socks5Initialized then
    match env.socksOk with
    | .error e =>
        { result := .err (str "failed to initialize SOCKS5 proxy: " ++ e)
          state := st, finalReq := (headerPhase cfg env req0).1, sent := none }
    | .ok _ =>
        roundTripRest cfg gz fl br env
          { st with dialSet := true, socks5Initialized := true }
          (headerPhase cfg env req0).1 (headerPhase cfg env req0).2
  else
    roundTripRest cfg gz fl br env st (headerPhase cfg env req0).1 (headerPhase cfg env req0).2

/-- Embedding of `Target` (unnamed/part_001): upstream base URL, local
path name-space, and the optional pre/post request hooks.  The post hook
receives `none` when the dispatch failed, as the Go hook receives a nil
response. -/
structure Target where
  BaseUrl : GoStr
  Prefix : GoStr
  PreRequest : Option (Request → Request)
  PostRequest : Option (Option Response → Option Response)

/-- The fields of `Proxy` (unnamed/part_001) that carry verified state:
the registry, the configured port, the listen address and whether a TLS
certificate was supplied.  The `transport` and `server` fields hold
runtime capabilities and are passed to the verified functions explicitly. -/
structure ProxyRec where
  targets : List (GoStr × Target)
  port : Int
  addr : Url
  hasCert : Bool

/-- Go map insertion for the registry: replaces the value of an existing
key (last registration wins), otherwise appends the new binding. -/
def mapInsert : List (GoStr × Target) → GoStr → Target → List (GoStr × Target)
  | [], k, v => [(k, v)]
  | (k0, v0) :: rest, k, v =>
      if k0 = k then (k, v) :: rest else (k0, v0) :: mapInsert rest k v

/-- Registry lookup by prefix key. -/
def mapLookup : List (GoStr × Target) → GoStr → Option Target
  | [], _ => none
  | (k0, v0) :: rest, k => if k0 = k then some v0 else mapLookup rest k

/-- The registry-building loop of `NewProxy` (unnamed/part_001:118-130).
For each target the loop copy's `Prefix` is given a leading `/` when it
lacks one and `BaseUrl` must parse; on success the map stores — exactly as
the Go line `targetMap[target.Prefix] = targets[i]` does — the ORIGINAL
element of the input slice under the normalized key, not the normalized
loop copy. -/
def buildTargetMap : List (GoStr × Target) → List Target → Except GoStr (List (GoStr × Target))
  | m, [] => .ok m
  | m, t :: rest =>
      let key := if goHasPref t.Prefix (str "/") then t.Prefix else str "/" ++ t.Prefix
      match urlParse t.BaseUrl with
      | .error e => .error (str "error parsing target URL " ++ t.BaseUrl ++ str ": " ++ e)
      | .ok _ => buildTargetMap (mapInsert m key t) rest

/-- Embedding of `NewProxy` (unnamed/part_001:117-147): build the registry
(failing fast on an unparsable target URL), apply the options (modelled as
the resulting `port` and certificate flag), then set the listen address to
`http://0.0.0.0:<port>`, switching the scheme to `https` when a
certificate was supplied. -/
def NewProxy (targets : List Target) (port : Int) (hasCert : Bool) : Except GoStr ProxyRec :=
  match buildTargetMap [] targets with
  | .error e => .error e
  | .ok m =>
      .ok { targets := m
            port := port
            addr := { scheme := if hasCert then str "https" else str "http"
                      host := str "0.0.0.0:" ++ str (toString port)
                      path := [] }
            hasCert := hasCert }

/-- Embedding of `Proxy.Addr` (unnamed/part_001:186-188): the string form
of the stored listen address. -/
def Addr (p : ProxyRec) : GoStr :=
  urlString p.addr

/-- The upstream request built by `buildRequest` once the target URL has
parsed to `t`: the inbound URL's scheme and host are replaced by the
target's, the matched prefix is stripped from the path with
`strings.TrimPrefix`, method, headers and body are carried over, and
`Close` is forced. -/
def builtReq (r : Request) (t : Url) (target : Target) : Request :=
  { method := r.method
    url := { scheme := t.scheme, host := t.host, path := goTrimPref r.url.path target.Prefix }
    headers := r.headers
    body := r.body
    close := true }

/-- Embedding of `buildRequest` (unnamed/part_001:322-352): re-parse the
target's base URL and assemble `builtReq`.  Reading the inbound body from
memory and `http.NewRequest` on the already-parsed data cannot fail in
this model. -/
def buildRequest (r : Request) (target : Target) : Except GoStr Request :=
  match urlParse target.BaseUrl with
  | .error _ => .error (str "error parsing target URL")
  | .ok t => .ok (builtReq r t target)

/-- The subset of Go `http.ResponseWriter` state the handler produces:
headers, the written status code and the written body bytes. -/
structure Writer where
  headers : Headers
  status : Option Nat
  body : GoStr

/-- The empty response writer handed to a handler. -/
def emptyWriter : Writer := { headers := [], status := none, body := [] }

/-- Embedding of Go `http.Error w msg code`: sets the plain-text headers,
writes the status code and the message followed by a newline. -/
def httpError (w : Writer) (msg : GoStr) (code : Nat) : Writer :=
  { headers :=
      headerSet (headerSet w.headers (str "Content-Type") (str "text/plain; charset=utf-8"))
        (str "X-Content-Type-Options") (str "nosniff")
    status := some code
    body := w.body ++ msg ++ str "\n" }

/-- Per-attribute body of the rewrite loop in `Proxy.copyBody`
(unnamed/part_001:299-309): classify the value, then — on the ALIASED
address (`url := p.addr` copies the pointer) — unconditionally overwrite
`Path` with the joined prefix/stripped-value path, and only when the value
is root-relative or on the target's origin replace the attribute with the
stringified address.  Returns the attribute value to store and the
(possibly shared) address after mutation. -/
def processVal (addr : Url) (target : Target) (val : GoStr) : GoStr × Url :=
  (if goHasPref val (str "/") || goHasPref val target.BaseUrl then
     urlString { addr with path := joinUrl [target.Prefix, goTrimPref val target.BaseUrl] }
   else val,
   { addr with path := joinUrl [target.Prefix, goTrimPref val target.BaseUrl] })

/-- One element of the rewrite loop: the inner Go loop visits the `href`
attribute and then the `src` attribute, processing each one that exists. -/
def processElem (addr : Url) (target : Target) (e : Elem) : Elem × Url :=
  let stepH : Option GoStr × Url :=
    match e.href with
    | none => (none, addr)
    | some v => let r := processVal addr target v; (some r.1, r.2)
  let stepS : Option GoStr × Url :=
    match e.src with
    | none => (none, stepH.2)
    | some v => let r := processVal stepH.2 target v; (some r.1, r.2)
  ({ href := stepH.1, src := stepS.1 }, stepS.2)

/-- The whole rewrite loop of `Proxy.copyBody` (unnamed/part_001:298-311)
over the matched elements in document order, threading the shared address. -/
def rewriteDoc (addr : Url) (target : Target) : List Elem → List Elem × Url
  | [] => ([], addr)
  | e :: rest =>
      let r := processElem addr target e
      let rr := rewriteDoc r.2 target rest
      (r.1 :: rr.1, rr.2)

/-- Embedding of `Proxy.copyBody` (unnamed/part_001:281-320): non-HTML
bodies are returned unchanged; HTML bodies are parsed (goquery, external —
a `none` document models a parse failure), rewritten by `rewriteDoc`
through the proxy's shared address, and re-serialized by the external
`ser` function standing for `document.Html()`.  Returns the body bytes
and the proxy state, whose `addr.path` the loop may have mutated. -/
def copyBody (ser : List Elem → GoStr) (p : ProxyRec) (resp : Response) (target : Target) :
    Except GoStr GoStr × ProxyRec :=
  if !goContains (headerGet resp.headers (str "Content-Type")) (str "text/html") then
    (.ok resp.body, p)
  else
    match resp.htmlDoc with
    | none => (.error (str "error parsing HTML content"), p)
    | some doc =>
        let r := rewriteDoc p.addr target doc
        (.ok (ser r.1), { p with addr := r.2 })

/-- Embedding of `copyHeaders` (unnamed/part_001:268-279): copy every
upstream header value, then set the fixed permissive CORS header set. -/
def copyHeaders (resp : Response) (w : Writer) : Writer :=
  let copied := resp.headers.foldl (fun hs kv => headerAdd hs kv.1 kv.2) w.headers
  let hs := headerSet copied (str "Access-Control-Allow-Origin") (str "*")
  let hs := headerSet hs (str "Access-Control-Allow-Methods") (str "GET, POST, PUT, DELETE, OPTIONS")
  let hs := headerSet hs (str "Access-Control-Allow-Headers") (str "Content-Type, Authorization")
  { w with headers := hs }

/-- Embedding of `Proxy.copyResponse` (unnamed/part_001:234-266).
Modelled from the spec: the `internal.DecompressResponse` and
`internal.CompressBody` functions this method calls are not under `src/`;
per §4.3 of the specification the codec bridge is shared and behaves
identically at both call sites, so they are modelled by the
`decompressResponse`/`compressBody` embeddings of src/compression.go.
Note the recompression passes the RAW original `Content-Encoding` string
to `compressBody`'s exact-match codec switch. -/
def copyResponse (gz fl br : Codec) (ser : List Elem → GoStr) (p : ProxyRec)
    (resp : Response) (w : Writer) (target : Target) :
    Except GoStr Unit × Writer × ProxyRec :=
  let w := copyHeaders resp w
  let encoding := headerGet resp.headers (str "Content-Encoding")
  let decompressed : Except GoStr Response :=
    if encoding ≠ [] then decompressResponse gz fl br resp else .ok resp
  match decompressed with
  | .error e => (.error (str "error decompressing response body: " ++ e), w, p)
  | .ok resp =>
      let cb := copyBody ser p resp target
      match cb.1 with
      | .error e => (.error (str "error copying response body: " ++ e), w, cb.2)
      | .ok newBody =>
          let recompressed : Except GoStr (GoStr × Writer) :=
            if encoding ≠ [] then
              match compressBody gz fl br newBody encoding with
              | .error e => .error (str "error compressing response body: " ++ e)
              | .ok c => .ok (c, { w with headers := headerSet w.headers (str "Content-Encoding") encoding })
            else .ok (newBody, w)
          match recompressed with
          | .error e => (.error e, w, cb.2)
          | .ok (body, w) =>
              (.ok (), { w with status := some resp.status, body := w.body ++ body }, cb.2)

/-- The pre hook, when set (unnamed/part_001:200-202). -/
def applyPre (target : Target) (q : Request) : Request :=
  match target.PreRequest with
  | some f => f q
  | none => q

/-- The post hook, when set (unnamed/part_001:205-207); it receives
`none` for a failed dispatch and its return value replaces the response. -/
def applyPost (target : Target) (r : Option Response) : Option Response :=
  match target.PostRequest with
  | some f => f r
  | none => r

/-- The writer produced by the `OPTIONS` short-circuit
(unnamed/part_001:215-223): the three fixed CORS headers on the fresh
writer and a 200 with no body. -/
def optionsWriter : Writer :=
  { headers :=
      headerSet (headerSet (headerSet [] (str "Access-Control-Allow-Origin") (str "*"))
          (str "Access-Control-Allow-Methods") (str "GET, POST, PUT, DELETE, OPTIONS"))
        (str "Access-Control-Allow-Headers") (str "Content-Type, Authorization")
    status := some 200
    body := [] }

/-- The tail of the handler after the single dispatch
(unnamed/part_001:208-231): 502 on transport error (the post hook was
already fed the nil response), then the `OPTIONS` short-circuit, then the
response copy.  `none` in the first component models the Go nil-pointer
panic when a post hook returned nil for a dispatch that succeeded. -/
def forwardAfterDispatch (gz fl br : Codec) (ser : List Elem → GoStr) (p : ProxyRec)
    (target : Target) (r : Request) (dispatched : Except GoStr Response)
    (respOpt : Option Response) : Option (Writer × ProxyRec) × Nat :=
  match dispatched with
  | .error _ => (some (httpError emptyWriter (str "Error forwarding request") 502, p), 1)
  | .ok _ =>
      if r.method = str "OPTIONS" then
        (some (optionsWriter, p), 1)
      else
        match respOpt with
        | none => (none, 1)
        | some resp =>
            match copyResponse gz fl br ser p resp emptyWriter target with
            | (.error _, w2, p2) => (some (httpError w2 (str "Error copying response") 502, p2), 1)
            | (.ok _, w2, p2) => (some (w2, p2), 1)

/-- Embedding of the handler returned by `Proxy.forwardRequest`
(unnamed/part_001:190-232) for one inbound request, in source order:
build the upstream request (502 on failure, zero dispatches), apply the
pre hook, dispatch through the transport EXACTLY ONCE, apply the post
hook to the dispatch outcome, and continue in `forwardAfterDispatch`.
Returns the writer and proxy state together with the number of upstream
dispatches performed. -/
def forwardRequest (gz fl br : Codec) (ser : List Elem → GoStr)
    (transport : Request → Except GoStr Response) (p : ProxyRec) (target : Target)
    (r : Request) : Option (Writer × ProxyRec) × Nat :=
  match buildRequest r target with
  | .error _ => (some (httpError emptyWriter (str "Error constructing new request") 502, p), 0)
  | .ok newReq =>
      forwardAfterDispatch gz fl br ser p target r
        (transport (applyPre target newReq))
        (applyPost target (Except.toOption (transport (applyPre target newReq))))

/-- A concrete stand-in for the external gzip codec, used to instantiate
round-trip hypotheses in witnesses: prepends a one-byte marker that its
decompressor checks and strips. -/
def cGz : Codec :=
  { comp := fun b => 'g' :: b
    decomp := fun b => match b with
      | 'g' :: t => .ok t
      | _ => .error (str "gzip: invalid header") }

/-- Concrete stand-in for the external flate codec. -/
def cFl : Codec :=
  { comp := fun b => 'f' :: b
    decomp := fun b => match b with
      | 'f' :: t => .ok t
      | _ => .error (str "flate: corrupt input") }

/-- Concrete stand-in for the external brotli codec. -/
def cBr : Codec :=
  { comp := fun b => 'b' :: b
    decomp := fun b => match b with
      | 'b' :: t => .ok t
      | _ => .error (str "brotli: corrupt input") }

/-- The proxy listen address used in concrete scenarios:
`http://localhost:8080` with an empty path, as after binding. -/
def cAddr : Url := { scheme := str "http", host := str "localhost:8080", path := [] }

/-- The registered example target of the specification's §8 scenario:
origin `https://example.com` under the prefix `/ex/`, no hooks. -/
def tEx : Target :=
  { BaseUrl := str "https://example.com", Prefix := str "/ex/"
    PreRequest := none, PostRequest := none }

/-- A plain inbound GET request below the `/ex/` prefix. -/
def reqPlain : Request :=
  { method := str "GET"
    url := { scheme := str "http", host := str "localhost:8080", path := str "/ex/foo" }
    headers := [], body := [], close := false }

/-- A plain upstream 200 response with no headers or body. -/
def respPlain : Response :=
  { status := 200, headers := [], body := [], contentLength := 0, htmlDoc := none }

/-- A stealth transport configured with `MinDelay = MaxDelay = 1s`
(1 000 000 000 ns), no user agents, no SOCKS5 proxy, no compression. -/
def cfgPaced : StealthConfig :=
  { userAgents := [], minDelay := 1000000000, maxDelay := 1000000000
    socks5Proxy := [], compression := false }

/-- An environment for a second dispatch 5 s after the epoch in which the
underlying transport would answer successfully. -/
def envC1 : Env :=
  { uaPick := 0, delayPick := 0, now := 5000000000, socksOk := .ok ()
    transport := fun _ => .ok respPlain }

/-- A freshly constructed transport's state. -/
def stFresh : StealthState :=
  { lastRequest := 0, socks5Initialized := false, dialSet := false }

/-- A target whose `Prefix` lacks the leading slash. -/
def tNoSlash : Target :=
  { BaseUrl := str "https://example.com", Prefix := str "ex/"
    PreRequest := none, PostRequest := none }

/-- True when the modelled `url.Parse` rejects the string. -/
def urlParseFails (s : GoStr) : Bool :=
  match urlParse s with
  | .error _ => true
  | .ok _ => false

/-- True when `buildTargetMap` aborts with an error. -/
def buildTargetMapFails (m : List (GoStr × Target)) (ts : List Target) : Bool :=
  match buildTargetMap m ts with
  | .error _ => true
  | .ok _ => false

/-- True when `NewProxy` fails. -/
def newProxyFails (targets : List Target) (port : Int) (hasCert : Bool) : Bool :=
  match NewProxy targets port hasCert with
  | .error _ => true
  | .ok _ => false

/-- Stated from the specification's words, for comparison with the code:
a valid absolute URL parses with a non-empty scheme and host. -/
def specIsAbsoluteUrl (s : GoStr) : Bool :=
  match urlParse s with
  | .ok u => !(u.scheme = []) && !(u.host = [])
  | .error _ => false

/-- A target whose `BaseUrl` is not an absolute URL (it is a bare host,
which Go's `url.Parse` accepts as a path). -/
def tBareHost : Target :=
  { BaseUrl := str "example.com", Prefix := str "/ex/"
    PreRequest := none, PostRequest := none }

/-- The stealth transport configured with a SOCKS5 proxy address. -/
def cfgSocks : StealthConfig :=
  { userAgents := [], minDelay := 0, maxDelay := 0
    socks5Proxy := str "127.0.0.1:1080", compression := false }

/-- An environment in which the SOCKS5 dialer constructor fails. -/
def envSocksFail : Env :=
  { uaPick := 0, delayPick := 0, now := 0, socksOk := .error (str "boom")
    transport := fun _ => .ok respPlain }

/-- A stealth transport with every feature off. -/
def cfgComp : StealthConfig :=
  { userAgents := [], minDelay := 0, maxDelay := 0, socks5Proxy := [], compression := false }

/-- A stealth transport with compression enabled. -/
def cfgCompOn : StealthConfig :=
  { userAgents := [], minDelay := 0, maxDelay := 0, socks5Proxy := [], compression := true }

/-- A request whose caller already supplied `Accept-Encoding`. -/
def reqAE : Request :=
  { method := str "GET"
    url := { scheme := str "http", host := str "localhost:8080", path := str "/ex/foo" }
    headers := [(str "Accept-Encoding", str "gzip")], body := [], close := false }

/-- An upstream response that still carries a `Content-Encoding`. -/
def respEnc : Response :=
  { status := 200, headers := [(str "Content-Encoding", str "gzip")]
    body := str "zzz", contentLength := 3, htmlDoc := none }

/-- An environment whose underlying transport answers `respEnc`. -/
def envAE : Env :=
  { uaPick := 0, delayPick := 0, now := 0, socksOk := .ok ()
    transport := fun _ => .ok respEnc }

/-- A stealth transport configured with two user agents. -/
def cfgUA : StealthConfig :=
  { userAgents := [str "AgentA/1.0", str "AgentB/2.0"], minDelay := 0, maxDelay := 0
    socks5Proxy := [], compression := false }

/-- A request whose caller pre-set a `User-Agent`. -/
def reqUA : Request :=
  { method := str "GET"
    url := { scheme := str "http", host := str "localhost:8080", path := str "/ex/foo" }
    headers := [(str "User-Agent", str "TestAgent/1.0")], body := [], close := false }

/-- An environment with a plain successful transport. -/
def envPlain : Env :=
  { uaPick := 1, delayPick := 0, now := 0, socksOk := .ok ()
    transport := fun _ => .ok respPlain }

/-- A serializer stand-in for goquery's `document.Html()` (external). -/
def ser0 : List Elem → GoStr := fun _ => []

/-- The proxy owning the `/ex/` registration at `http://localhost:8080`. -/
def p0 : ProxyRec :=
  { targets := [(str "/ex/", tEx)], port := 8080, addr := cAddr, hasCert := false }

/-- An inbound CORS preflight against the registered `/ex/` prefix. -/
def reqOpts : Request :=
  { method := str "OPTIONS"
    url := { scheme := str "http", host := str "localhost:8080", path := str "/ex/foo" }
    headers := [], body := [], close := false }

/-- An upstream transport that always answers 200. -/
def transportOk : Request → Except GoStr Response := fun _ => .ok respPlain

/-- The attribute values of one matched element in the order the rewrite
loop visits them: `href` first, then `src`. -/
def elemVals (e : Elem) : List GoStr :=
  (match e.href with | some v => [v] | none => []) ++
  (match e.src with | some v => [v] | none => [])

/-- All attribute values of the matched elements in visiting order. -/
def docVals (doc : List Elem) : List GoStr :=
  doc.flatMap elemVals

/-- The two-link HTML document of the aliasing scenario: a rewritten
first anchor and a foreign-origin last anchor. -/
def doc10 : List Elem :=
  [ { href := some (str "/x"), src := none }
  , { href := some (str "https://other.com/y"), src := none } ]

/-- An HTML response carrying `doc10` as its parsed document. -/
def resp10 : Response :=
  { status := 200, headers := [(str "Content-Type", str "text/html")]
    body := str "<html/>", contentLength := 7, htmlDoc := some doc10 }

/-- C1: with `MinDelay = MaxDelay = 1s` the pacing step of `RoundTrip` is
NOT well-defined: `rand.Int63n(maxDelay - minDelay)` is `rand.Int63n 0`,
which panics in Go, so the dispatch never happens — contradicting the
claim (and the struct's own doc comment) that two sequential dispatches
simply end up at least one second apart. -/
theorem c1_min_eq_max_pacing_panics :
    (RoundTrip cfgPaced cGz cFl cBr envC1 stFresh reqPlain).result = .panicked ∧
    (RoundTrip cfgPaced cGz cFl cBr envC1 stFresh reqPlain).sent = none :=
  ⟨rfl, rfl⟩

/-- C5: `NewProxy` normalizes the prefix only for the registry KEY — the
line `targetMap[target.Prefix] = targets[i]` stores the original slice
element, so the stored `Target` keeps the un-normalized prefix `ex/`,
which later prefix stripping and rewriting use: the spec's invariant that
the registered target's prefix begins with `/` is violated by the stored
value. -/
theorem c5_registry_stores_unnormalized_target :
    (NewProxy [tNoSlash] 0 false).toOption.bind
        (fun p => (mapLookup p.targets (str "/ex/")).map Target.Prefix) = some (str "ex/") ∧
    (NewProxy [tNoSlash] 0 false).toOption.bind
        (fun p => (mapLookup p.targets (str "ex/")).map Target.Prefix) = none :=
  ⟨rfl, rfl⟩

/-- C9 counterexample: `example.com` is not a valid absolute URL, yet
`NewProxy` succeeds on a target list containing it, because the code only
checks that `url.Parse` returns no error — refuting the claim that every
non-absolute base URL aborts construction. -/
theorem c9_nonabsolute_url_accepted :
    specIsAbsoluteUrl (str "example.com") = false ∧
    newProxyFails [tBareHost] 0 false = false :=
  ⟨rfl, rfl⟩

/-- The registry-building loop fails exactly when some target's base URL
fails to parse. -/
theorem buildTargetMapFails_iff (ts : List Target) :
    ∀ m, buildTargetMapFails m ts = true ↔ ∃ t ∈ ts, urlParseFails t.BaseUrl = true := by
  induction ts with
  | nil =>
      intro m
      simp [buildTargetMapFails, buildTargetMap]
  | cons t rest ih =>
      intro m
      cases hp : urlParse t.BaseUrl with
      | error e =>
          simp only [buildTargetMapFails, buildTargetMap, hp]
          constructor
          · intro _
            exact ⟨t, List.mem_cons_self t rest, by simp [urlParseFails, hp]⟩
          · intro _
            trivial
      | ok u =>
          have hfail : urlParseFails t.BaseUrl = false := by simp [urlParseFails, hp]
          simp only [buildTargetMapFails, buildTargetMap, hp]
          rw [show (match buildTargetMap (mapInsert m (if goHasPref t.Prefix (str "/") then t.Prefix else str "/" ++ t.Prefix) t) rest with
                    | .error _ => true
                    | .ok _ => false) =
                buildTargetMapFails (mapInsert m (if goHasPref t.Prefix (str "/") then t.Prefix else str "/" ++ t.Prefix) t) rest from rfl]
          rw [ih]
          constructor
          · rintro ⟨t2, ht2, hf⟩
            exact ⟨t2, List.mem_cons_of_mem t ht2, hf⟩
          · rintro ⟨t2, ht2, hf⟩
            rcases List.mem_cons.mp ht2 with h | h
            · subst h
              rw [hfail] at hf
              exact absurd hf (by simp)
            · exact ⟨t2, h, hf⟩

/-- C9 amended: `NewProxy` fails exactly when some target's `BaseUrl`
fails `url.Parse` (control character or leading colon); whether the URL
is absolute is never checked. -/
theorem c9_fails_iff_unparsable (targets : List Target) (port : Int) (hasCert : Bool) :
    newProxyFails targets port hasCert = true ↔
      ∃ t ∈ targets, urlParseFails t.BaseUrl = true := by
  have h : newProxyFails targets port hasCert = buildTargetMapFails [] targets := by
    unfold newProxyFails NewProxy buildTargetMapFails
    cases buildTargetMap [] targets <;> rfl
  rw [h, buildTargetMapFails_iff]

/-- C4: for each codec token in {gzip, deflate, br}, compressing any byte
sequence (including the empty one) with `compressBody` and then running
`decompressResponse` on a response carrying those bytes under the matching
`Content-Encoding` token restores exactly the original bytes, removes the
header and updates the length — assuming the three external codecs are
themselves inverse pairs (they are library code outside this repository).
This verifies the repository's own token matching and body/header
plumbing around them. -/
theorem c4_codec_roundtrip (gz fl br : Codec) (x : GoStr)
    (hgz : ∀ b, gz.decomp (gz.comp b) = .ok b)
    (hfl : ∀ b, fl.decomp (fl.comp b) = .ok b)
    (hbr : ∀ b, br.decomp (br.comp b) = .ok b) :
    ∀ enc ∈ [str "gzip", str "deflate", str "br"],
      ∃ c, compressBody gz fl br x enc = .ok c ∧
        decompressResponse gz fl br
          { status := 200, headers := [(str "Content-Encoding", enc)], body := c,
            contentLength := (c.length : Int), htmlDoc := none } =
          .ok { status := 200, headers := [], body := x,
                contentLength := (x.length : Int), htmlDoc := none } := by
  intro enc henc
  simp only [List.mem_cons, List.mem_singleton, List.not_mem_nil, or_false] at henc
  rcases henc with h | h | h
  · subst h
    refine ⟨gz.comp x, rfl, ?_⟩
    have hred : decompressResponse gz fl br
        { status := 200, headers := [(str "Content-Encoding", str "gzip")], body := gz.comp x,
          contentLength := ((gz.comp x).length : Int), htmlDoc := none } =
        (match gz.decomp (gz.comp x) with
         | .error e => .error e
         | .ok body =>
             .ok { status := 200, headers := [], body := body,
                   contentLength := (body.length : Int), htmlDoc := none }) := rfl
    rw [hred, hgz x]
  · subst h
    refine ⟨fl.comp x, rfl, ?_⟩
    have hred : decompressResponse gz fl br
        { status := 200, headers := [(str "Content-Encoding", str "deflate")], body := fl.comp x,
          contentLength := ((fl.comp x).length : Int), htmlDoc := none } =
        (match fl.decomp (fl.comp x) with
         | .error e => .error e
         | .ok body =>
             .ok { status := 200, headers := [], body := body,
                   contentLength := (body.length : Int), htmlDoc := none }) := rfl
    rw [hred, hfl x]
  · subst h
    refine ⟨br.comp x, rfl, ?_⟩
    have hred : decompressResponse gz fl br
        { status := 200, headers := [(str "Content-Encoding", str "br")], body := br.comp x,
          contentLength := ((br.comp x).length : Int), htmlDoc := none } =
        (match br.decomp (br.comp x) with
         | .error e => .error e
         | .ok body =>
             .ok { status := 200, headers := [], body := body,
                   contentLength := (body.length : Int), htmlDoc := none }) := rfl
    rw [hred, hbr x]

/-- C4 witness: round trip of the bytes `abc` through the concrete gzip
stand-in codec. -/
theorem c4_codec_roundtrip_witness :
    ∃ c, compressBody cGz cFl cBr (str "abc") (str "gzip") = .ok c ∧
      decompressResponse cGz cFl cBr
        { status := 200, headers := [(str "Content-Encoding", str "gzip")], body := c,
          contentLength := (c.length : Int), htmlDoc := none } =
        .ok { status := 200, headers := [], body := str "abc",
              contentLength := ((str "abc").length : Int), htmlDoc := none } :=
  c4_codec_roundtrip cGz cFl cBr (str "abc")
    (fun _ => rfl) (fun _ => rfl) (fun _ => rfl)
    (str "gzip") (List.mem_cons_self _ _)

/-- Deleting one key leaves `Get` of any other key unchanged. -/
theorem headerGet_del_ne (hs : Headers) (k key : GoStr) (h : ¬ k = key) :
    headerGet (headerDel hs k) key = headerGet hs key := by
  induction hs with
  | nil => rfl
  | cons kv rest ih =>
      obtain ⟨k0, v0⟩ := kv
      by_cases h0 : k0 = k
      · subst h0
        have hstep : headerDel ((k0, v0) :: rest) k0 = headerDel rest k0 := by
          simp [headerDel, List.filter_cons]
        rw [hstep, ih]
        have hne : ¬ k0 = key := h
        simp [headerGet, hne]
      · have hstep : headerDel ((k0, v0) :: rest) k = (k0, v0) :: headerDel rest k := by
          simp [headerDel, List.filter_cons, h0]
        rw [hstep]
        by_cases h1 : k0 = key <;> simp [headerGet, h1, ih]

/-- Appending a binding for one key leaves `Get` of any other key
unchanged. -/
theorem headerGet_append_single_ne (l : Headers) (k v key : GoStr) (h : ¬ k = key) :
    headerGet (l ++ [(k, v)]) key = headerGet l key := by
  induction l with
  | nil => simp [headerGet, h]
  | cons kv rest ih =>
      obtain ⟨k0, v0⟩ := kv
      by_cases h1 : k0 = key <;> simp [headerGet, h1, ih]

/-- Setting one key leaves `Get` of any other key unchanged. -/
theorem headerGet_set_ne (hs : Headers) (k v key : GoStr) (h : ¬ k = key) :
    headerGet (headerSet hs k v) key = headerGet hs key := by
  unfold headerSet
  rw [headerGet_append_single_ne _ _ _ _ h, headerGet_del_ne _ _ _ h]

/-- `addHeaderIfNotExists` for one key leaves `Get` of any other key
unchanged. -/
theorem addHeader_get_ne (req : Request) (k v key : GoStr) (h : ¬ k = key) :
    headerGet (addHeaderIfNotExists req k v).headers key = headerGet req.headers key := by
  unfold addHeaderIfNotExists
  split
  · exact headerGet_set_ne _ _ _ _ h
  · rfl

/-- A fold of `addHeaderIfNotExists` over keys all different from `key`
leaves `Get key` unchanged. -/
theorem foldl_addHeader_get_ne (l : List (GoStr × GoStr)) :
    ∀ (req : Request) (key : GoStr), (∀ kv ∈ l, ¬ kv.1 = key) →
      headerGet (l.foldl (fun r kv => addHeaderIfNotExists r kv.1 kv.2) req).headers key =
        headerGet req.headers key := by
  induction l with
  | nil => intro req key _; rfl
  | cons kv rest ih =>
      intro req key h
      have h1 : ¬ kv.1 = key := h kv (List.mem_cons_self _ _)
      have h2 : ∀ kv2 ∈ rest, ¬ kv2.1 = key := fun kv2 hm => h kv2 (List.mem_cons_of_mem _ hm)
      simp only [List.foldl_cons]
      rw [ih _ _ h2, addHeader_get_ne _ _ _ _ h1]

/-- The canned-header fold leaves `Get` unchanged for any key outside the
canned set; instantiated below at `Accept-Encoding` and `User-Agent`. -/
theorem applyCanned_get_ne (req : Request) (key : GoStr)
    (h : ∀ kv ∈ cannedHeaderList, ¬ kv.1 = key) :
    headerGet (applyCanned req).headers key = headerGet req.headers key :=
  foldl_addHeader_get_ne _ _ _ h

/-- When the caller already supplied `Accept-Encoding`, the header phase
leaves it untouched and reports `hadCompression = true`. -/
theorem headerPhase_AE (cfg : StealthConfig) (env : Env) (req : Request)
    (h : headerGet req.headers (str "Accept-Encoding") ≠ []) :
    headerPhase cfg env req = (reqAfterCanned cfg env req, true) ∧
    headerGet (headerPhase cfg env req).1.headers (str "Accept-Encoding") =
      headerGet req.headers (str "Accept-Encoding") := by
  have gUA : headerGet (applyUA cfg env req).headers (str "Accept-Encoding") =
      headerGet req.headers (str "Accept-Encoding") := by
    unfold applyUA
    split
    · exact addHeader_get_ne _ _ _ _ (by decide)
    · rfl
  have gC : headerGet (reqAfterCanned cfg env req).headers (str "Accept-Encoding") =
      headerGet req.headers (str "Accept-Encoding") := by
    unfold reqAfterCanned
    rw [applyCanned_get_ne _ _ (by decide), gUA]
  have hc : hadCompressionOf cfg env req = true := by
    unfold hadCompressionOf
    rw [gC]
    simp [h]
  have hpair : headerPhase cfg env req = (reqAfterCanned cfg env req, true) := by
    unfold headerPhase
    rw [hc]
    simp
  refine ⟨hpair, ?_⟩
  rw [hpair]
  exact gC

/-- `roundTripRest` never changes the SOCKS5-initialized flag. -/
theorem roundTripRest_init (cfg : StealthConfig) (gz fl br : Codec) (env : Env)
    (st : StealthState) (req : Request) (hc : Bool) :
    (roundTripRest cfg gz fl br env st req hc).state.socks5Initialized =
      st.socks5Initialized := by
  unfold roundTripRest
  repeat' split
  all_goals rfl

/-- `roundTripRest` returns the request it was given as the final
request. -/
theorem roundTripRest_finalReq (cfg : StealthConfig) (gz fl br : Codec) (env : Env)
    (st : StealthState) (req : Request) (hc : Bool) :
    (roundTripRest cfg gz fl br env st req hc).finalReq = req := by
  unfold roundTripRest
  repeat' split
  all_goals rfl

/-- `RoundTrip`'s final request is always the output of the header
phase, on every control path. -/
theorem RoundTrip_finalReq (cfg : StealthConfig) (gz fl br : Codec) (env : Env)
    (st : StealthState) (req : Request) :
    (RoundTrip cfg gz fl br env st req).finalReq = (headerPhase cfg env req).1 := by
  unfold RoundTrip
  split
  · split
    · rfl
    · exact roundTripRest_finalReq _ _ _ _ _ _ _ _
  · exact roundTripRest_finalReq _ _ _ _ _ _ _ _

/-- When it was dispatched at all, the dispatched request is the one
handed in, and the underlying transport's successful answer is returned
untouched — the decompression branch is skipped because `hadCompression`
is true. -/
theorem roundTripRest_sent_ok (cfg : StealthConfig) (gz fl br : Codec) (env : Env)
    (st : StealthState) (req : Request) :
    ∀ s res, (roundTripRest cfg gz fl br env st req true).sent = some s →
      env.transport s = .ok res →
      (roundTripRest cfg gz fl br env st req true).result = .ok res := by
  intro s res hs htr
  cases hp : pacedTime cfg env st with
  | none =>
      rw [roundTripRest, hp] at hs
      simp at hs
  | some dt =>
      cases htrans : env.transport req with
      | error e =>
          rw [roundTripRest, hp, htrans] at hs
          simp only [Option.some.injEq] at hs
          rw [← hs] at htr
          rw [htrans] at htr
          cases htr
      | ok res2 =>
          have hguard : (cfg.compression && !true &&
              !(headerGet res2.headers (str "Content-Encoding") = [])) = false := by
            simp
          rw [roundTripRest, hp, htrans] at hs ⊢
          dsimp only at hs ⊢
          rw [hguard] at hs ⊢
          simp only [Bool.false_eq_true, if_false] at hs ⊢
          simp only [Option.some.injEq] at hs
          rw [← hs] at htr
          rw [htrans] at htr
          cases htr
          rfl

/-- The header phase never overwrites a caller-supplied `User-Agent`, and
applies no default at all when the configured agent list is empty. -/
theorem headerPhase_UA (cfg : StealthConfig) (env : Env) (req : Request)
    (h : headerGet req.headers (str "User-Agent") ≠ [] ∨ cfg.userAgents = []) :
    headerGet (headerPhase cfg env req).1.headers (str "User-Agent") =
      headerGet req.headers (str "User-Agent") := by
  have gUA : headerGet (applyUA cfg env req).headers (str "User-Agent") =
      headerGet req.headers (str "User-Agent") := by
    unfold applyUA
    rcases h with h | h
    · split
      · unfold addHeaderIfNotExists
        rw [if_neg h]
      · rfl
    · rw [h]
      simp
  have gC : headerGet (reqAfterCanned cfg env req).headers (str "User-Agent") =
      headerGet req.headers (str "User-Agent") := by
    unfold reqAfterCanned
    rw [applyCanned_get_ne _ _ (by decide), gUA]
  unfold headerPhase
  dsimp only
  split
  · dsimp only
    rw [headerGet_set_ne _ _ _ _ (by decide)]
    exact gC
  · exact gC

/-- C6: SOCKS5 dialer construction is attempted only while the
initialized flag is unset.  On a construction failure the call returns
the initialization error, leaves the whole transport state (flag
included) unchanged, and never dispatches upstream; on success the flag
is set; and once the flag is set the outcome of a call no longer depends
on the dialer-construction result at all — later calls skip
re-initialization. -/
theorem c6_socks5_init_once (cfg : StealthConfig) (gz fl br : Codec) (env : Env)
    (st : StealthState) (req : Request) :
    (∀ e, cfg.socks5Proxy ≠ [] → st.socks5Initialized = false → env.socksOk = .error e →
        RoundTrip cfg gz fl br env st req =
          { result := .err (str "failed to initialize SOCKS5 proxy: " ++ e)
            state := st, finalReq := (headerPhase cfg env req).1, sent := none })
  ∧ (cfg.socks5Proxy ≠ [] → st.socks5Initialized = false → env.socksOk = .ok () →
        (RoundTrip cfg gz fl br env st req).state.socks5Initialized = true)
  ∧ (st.socks5Initialized = true → ∀ so,
        RoundTrip cfg gz fl br { env with socksOk := so } st req =
          RoundTrip cfg gz fl br env st req) := by
  refine ⟨?_, ?_, ?_⟩
  · intro e hso hinit henv
    have hcond : (cfg.socks5Proxy ≠ [] && !st.socks5Initialized) = true := by
      rw [hinit]
      simp [hso]
    rw [RoundTrip, if_pos hcond, henv]
  · intro hso hinit henv
    have hcond : (cfg.socks5Proxy ≠ [] && !st.socks5Initialized) = true := by
      rw [hinit]
      simp [hso]
    rw [RoundTrip, if_pos hcond, henv]
    dsimp only
    rw [roundTripRest_init]
  · intro hinit so
    have hcond : ¬ ((cfg.socks5Proxy ≠ [] && !st.socks5Initialized) = true) := by
      rw [hinit]
      simp
    rw [RoundTrip, if_neg hcond, RoundTrip, if_neg hcond]
    rfl

/-- C6 witness: a concrete failed SOCKS5 construction returns the
initialization error with the flag still unset and no dispatch. -/
theorem c6_socks5_init_once_witness :
    RoundTrip cfgSocks cGz cFl cBr envSocksFail stFresh reqPlain =
      { result := .err (str "failed to initialize SOCKS5 proxy: " ++ str "boom")
        state := stFresh
        finalReq := (headerPhase cfgSocks envSocksFail reqPlain).1
        sent := none } :=
  (c6_socks5_init_once cfgSocks cGz cFl cBr envSocksFail stFresh reqPlain).1
    (str "boom") (by decide) rfl rfl

/-- C7: when the caller supplied its own `Accept-Encoding`, the transport
leaves that header exactly as supplied on every control path, and (when a
dispatch happens at all) returns the underlying transport's successful
response untouched — no decompression, no header rewriting, whatever the
compression setting. -/
theorem c7_accept_encoding_untouched (cfg : StealthConfig) (gz fl br : Codec) (env : Env)
    (st : StealthState) (req : Request)
    (h : headerGet req.headers (str "Accept-Encoding") ≠ []) :
    headerGet (RoundTrip cfg gz fl br env st req).finalReq.headers (str "Accept-Encoding") =
      headerGet req.headers (str "Accept-Encoding") ∧
    (∀ s res, (RoundTrip cfg gz fl br env st req).sent = some s →
      env.transport s = .ok res →
      (RoundTrip cfg gz fl br env st req).result = .ok res) := by
  obtain ⟨hpair, hget⟩ := headerPhase_AE cfg env req h
  constructor
  · rw [RoundTrip_finalReq]
    exact hget
  · intro s res hs htr
    by_cases hcond : (cfg.socks5Proxy ≠ [] && !st.socks5Initialized) = true
    · cases henv : env.socksOk with
      | error e =>
          rw [RoundTrip, if_pos hcond, henv] at hs
          simp at hs
      | ok u =>
          rw [RoundTrip, if_pos hcond, henv] at hs ⊢
          dsimp only at hs ⊢
          rw [hpair] at hs ⊢
          exact roundTripRest_sent_ok _ _ _ _ _ _ _ s res hs htr
    · rw [RoundTrip, if_neg hcond] at hs ⊢
      rw [hpair] at hs ⊢
      exact roundTripRest_sent_ok _ _ _ _ _ _ _ s res hs htr

/-- C7 witness: with compression enabled and a caller-supplied
`Accept-Encoding: gzip`, the header survives and the still-compressed
upstream response is returned byte-for-byte. -/
theorem c7_accept_encoding_untouched_witness :
    headerGet (RoundTrip cfgCompOn cGz cFl cBr envAE stFresh reqAE).finalReq.headers
        (str "Accept-Encoding") = headerGet reqAE.headers (str "Accept-Encoding") ∧
    (RoundTrip cfgCompOn cGz cFl cBr envAE stFresh reqAE).result = .ok respEnc :=
  ⟨(c7_accept_encoding_untouched cfgCompOn cGz cFl cBr envAE stFresh reqAE (by decide)).1,
   (c7_accept_encoding_untouched cfgCompOn cGz cFl cBr envAE stFresh reqAE (by decide)).2
     (headerPhase cfgCompOn envAE reqAE).1 respEnc rfl rfl⟩

/-- C8: a caller-supplied non-empty `User-Agent` is never overwritten,
whatever the configured agent list; and with an empty agent list the
`User-Agent` header is left exactly as it came (no default at all). -/
theorem c8_user_agent_not_overwritten (cfg : StealthConfig) (gz fl br : Codec) (env : Env)
    (st : StealthState) (req : Request) :
    (headerGet req.headers (str "User-Agent") ≠ [] →
      headerGet (RoundTrip cfg gz fl br env st req).finalReq.headers (str "User-Agent") =
        headerGet req.headers (str "User-Agent")) ∧
    (cfg.userAgents = [] →
      headerGet (RoundTrip cfg gz fl br env st req).finalReq.headers (str "User-Agent") =
        headerGet req.headers (str "User-Agent")) := by
  constructor
  · intro h
    rw [RoundTrip_finalReq]
    exact headerPhase_UA _ _ _ (Or.inl h)
  · intro h
    rw [RoundTrip_finalReq]
    exact headerPhase_UA _ _ _ (Or.inr h)

/-- C8 witness: the pre-set `TestAgent/1.0` survives a round trip with a
non-empty agent list; and with an empty agent list a request without a
`User-Agent` still has none afterwards. -/
theorem c8_user_agent_not_overwritten_witness :
    headerGet (RoundTrip cfgUA cGz cFl cBr envPlain stFresh reqUA).finalReq.headers
        (str "User-Agent") = headerGet reqUA.headers (str "User-Agent") ∧
    headerGet (RoundTrip cfgComp cGz cFl cBr envPlain stFresh reqPlain).finalReq.headers
        (str "User-Agent") = headerGet reqPlain.headers (str "User-Agent") :=
  ⟨(c8_user_agent_not_overwritten cfgUA cGz cFl cBr envPlain stFresh reqUA).1 (by decide),
   (c8_user_agent_not_overwritten cfgComp cGz cFl cBr envPlain stFresh reqPlain).2 rfl⟩

/-- C2 counterexample: the handler evaluated on an `OPTIONS` request
against the registered `/ex/` prefix does answer 200 with
`Access-Control-Allow-Origin: *` — but only after performing exactly one
upstream dispatch, refuting the claimed zero. -/
theorem c2_options_dispatches_upstream :
    (forwardRequest cGz cFl cBr ser0 transportOk p0 tEx reqOpts).2 ≠ 0 ∧
    (forwardRequest cGz cFl cBr ser0 transportOk p0 tEx reqOpts).2 = 1 ∧
    (forwardRequest cGz cFl cBr ser0 transportOk p0 tEx reqOpts).1 = some (optionsWriter, p0) ∧
    optionsWriter.status = some 200 ∧
    headerGet optionsWriter.headers (str "Access-Control-Allow-Origin") = str "*" :=
  ⟨by decide, rfl, rfl, rfl, by decide⟩

/-- Every path through the post-dispatch tail reports exactly one
dispatch. -/
theorem forwardAfterDispatch_count (gz fl br : Codec) (ser : List Elem → GoStr)
    (p : ProxyRec) (target : Target) (r : Request) (dispatched : Except GoStr Response)
    (respOpt : Option Response) :
    (forwardAfterDispatch gz fl br ser p target r dispatched respOpt).2 = 1 := by
  unfold forwardAfterDispatch
  repeat' split
  all_goals rfl

/-- C2 amended: an `OPTIONS` request whose target URL parses performs
exactly one upstream dispatch; when that dispatch succeeds the handler
short-circuits with the fixed CORS writer (200, `Access-Control-Allow-Origin:
*`), and when it fails the handler answers 502. -/
theorem c2_options_one_dispatch (gz fl br : Codec) (ser : List Elem → GoStr)
    (transport : Request → Except GoStr Response) (p : ProxyRec) (target : Target)
    (r : Request) (u : Url)
    (hm : r.method = str "OPTIONS") (hp : urlParse target.BaseUrl = .ok u) :
    buildRequest r target = .ok (builtReq r u target) ∧
    (forwardRequest gz fl br ser transport p target r).2 = 1 ∧
    (∀ res, transport (applyPre target (builtReq r u target)) = .ok res →
      (forwardRequest gz fl br ser transport p target r).1 = some (optionsWriter, p)) ∧
    (∀ e, transport (applyPre target (builtReq r u target)) = .error e →
      (forwardRequest gz fl br ser transport p target r).1 =
        some (httpError emptyWriter (str "Error forwarding request") 502, p)) ∧
    optionsWriter.status = some 200 ∧
    headerGet optionsWriter.headers (str "Access-Control-Allow-Origin") = str "*" := by
  have hb : buildRequest r target = .ok (builtReq r u target) := by
    unfold buildRequest
    rw [hp]
  refine ⟨hb, ?_, ?_, ?_, rfl, by decide⟩
  · rw [forwardRequest, hb]
    exact forwardAfterDispatch_count _ _ _ _ _ _ _ _ _
  · intro res htr
    rw [forwardRequest, hb]
    dsimp only
    rw [htr, forwardAfterDispatch.eq_def]
    dsimp only
    rw [if_pos hm]
  · intro e htr
    rw [forwardRequest, hb]
    dsimp only
    rw [htr, forwardAfterDispatch.eq_def]

/-- C2 witness: the concrete preflight of the counterexample scenario,
driven through the amended theorem. -/
theorem c2_options_one_dispatch_witness :
    (forwardRequest cGz cFl cBr ser0 transportOk p0 tEx reqOpts).1 = some (optionsWriter, p0) ∧
    (forwardRequest cGz cFl cBr ser0 transportOk p0 tEx reqOpts).2 = 1 :=
  ⟨((c2_options_one_dispatch cGz cFl cBr ser0 transportOk p0 tEx reqOpts
      { scheme := str "https", host := str "example.com", path := [] } rfl rfl).2.2.1)
      respPlain rfl,
   (c2_options_one_dispatch cGz cFl cBr ser0 transportOk p0 tEx reqOpts
      { scheme := str "https", host := str "example.com", path := [] } rfl rfl).2.1⟩

/-- Every string has the empty prefix. -/
theorem goHasPref_nil (s : GoStr) : goHasPref s [] = true := by
  cases s <;> rfl

/-- A string starting with the character `/` has the `"/"` prefix. -/
theorem goHasPref_cons_slash (s : GoStr) : goHasPref ('/' :: s) (str "/") = true := by
  show (decide ('/' = '/') && goHasPref s []) = true
  rw [goHasPref_nil]
  rfl

/-- Trimming a suffix from a string beginning with `/` leaves the empty
string or a string still beginning with `/`. -/
theorem trimSuf_head (rest suf : GoStr) :
    goTrimSuf ('/' :: rest) suf = [] ∨ ∃ t, goTrimSuf ('/' :: rest) suf = '/' :: t := by
  unfold goTrimSuf
  split
  · cases h : ('/' :: rest).length - suf.length with
    | zero =>
        left
        rfl
    | succ k =>
        right
        exact ⟨rest.take k, rfl⟩
  · right
    exact ⟨rest, rfl⟩

/-- Joining a prefix that begins with `/` to any second element yields a
path that begins with `/`. -/
theorem joinUrl_pair_starts_slash (p x : GoStr) (hp : goHasPref p (str "/") = true) :
    goHasPref (joinUrl [p, x]) (str "/") = true := by
  cases p with
  | nil =>
      exact absurd hp (by decide)
  | cons c cs =>
      have hc : c = '/' := by
        have hp2 : (decide (c = '/') && goHasPref cs []) = true := hp
        exact of_decide_eq_true ((Bool.and_eq_true _ _).mp hp2).1
      subst hc
      have hstep : joinUrl ['/' :: cs, x] =
          goTrimSuf ('/' :: cs) (str "/") ++ str "/" ++ joinUrlRest [x] := rfl
      rw [hstep]
      rcases trimSuf_head cs (str "/") with h | ⟨t, h⟩
      · rw [h]
        exact goHasPref_cons_slash _
      · rw [h]
        rw [show ('/' :: t) ++ str "/" ++ joinUrlRest [x] =
              '/' :: (t ++ str "/" ++ joinUrlRest [x]) from rfl]
        exact goHasPref_cons_slash _

/-- C3: for every attribute value visited by the rewrite loop of
`copyBody` — the `href` of an `a` or `link` and the `src` of an `img` or
`script` — a value beginning with `/` or with the target's base origin is
replaced by the proxy's base address (`scheme://host`) followed by the
path-join of the target prefix and the value with the origin stripped,
and every other value is left byte-identical. -/
theorem c3_rewrite_attr (addr : Url) (target : Target) (val : GoStr)
    (hpfx : goHasPref target.Prefix (str "/") = true) :
    ((goHasPref val (str "/") || goHasPref val target.BaseUrl) = true →
      (processVal addr target val).1 =
        addr.scheme ++ str "://" ++ addr.host ++
          joinUrl [target.Prefix, goTrimPref val target.BaseUrl]) ∧
    ((goHasPref val (str "/") || goHasPref val target.BaseUrl) = false →
      (processVal addr target val).1 = val) := by
  constructor
  · intro h
    rw [processVal]
    dsimp only
    rw [h]
    have hJ : goHasPref (joinUrl [target.Prefix, goTrimPref val target.BaseUrl]) (str "/") = true :=
      joinUrl_pair_starts_slash _ _ hpfx
    simp [urlString, hJ]
  · intro h
    rw [processVal]
    dsimp only
    rw [h]
    rfl

/-- C3 witness: the three concrete §8 scenarios — with base origin
`https://example.com` at prefix `/ex/` on proxy `http://localhost:8080`,
the root-relative `/path` and the same-origin absolute
`https://example.com/path` both rewrite to
`http://localhost:8080/ex/path`, while the foreign-origin
`https://other.com/x` stays byte-identical. -/
theorem c3_rewrite_attr_witness :
    (processVal cAddr tEx (str "/path")).1 = str "http://localhost:8080/ex/path" ∧
    (processVal cAddr tEx (str "https://example.com/path")).1 = str "http://localhost:8080/ex/path" ∧
    (processVal cAddr tEx (str "https://other.com/x")).1 = str "https://other.com/x" := by
  refine ⟨?_, ?_, ?_⟩
  · rw [(c3_rewrite_attr cAddr tEx (str "/path") (by decide)).1 (by decide)]
    decide
  · rw [(c3_rewrite_attr cAddr tEx (str "https://example.com/path") (by decide)).1 (by decide)]
    decide
  · exact (c3_rewrite_attr cAddr tEx (str "https://other.com/x") (by decide)).2 (by decide)

/-- Processing one element leaves the shared address's path equal to the
join for the LAST attribute the element carries — whether or not that
attribute was rewritten — and leaves the address unchanged when the
element carries none. -/
theorem processElem_addr (addr : Url) (target : Target) (e : Elem) :
    (processElem addr target e).2 =
      match (elemVals e).getLast? with
      | some v => { addr with path := joinUrl [target.Prefix, goTrimPref v target.BaseUrl] }
      | none => addr := by
  obtain ⟨h, s⟩ := e
  cases h <;> cases s <;> simp [processElem, processVal, elemVals]

/-- After the whole rewrite loop, the shared address's path is the join
for the LAST visited attribute value of the document (rewritten or not),
and the address is untouched when no matched element carries an
attribute. -/
theorem rewriteDoc_addr (target : Target) :
    ∀ (doc : List Elem) (addr : Url),
      (rewriteDoc addr target doc).2 =
        match (docVals doc).getLast? with
        | some v => { addr with path := joinUrl [target.Prefix, goTrimPref v target.BaseUrl] }
        | none => addr := by
  intro doc
  induction doc with
  | nil =>
      intro addr
      rfl
  | cons e rest ih =>
      intro addr
      have hsplit : docVals (e :: rest) = elemVals e ++ docVals rest := by
        simp [docVals]
      rw [show (rewriteDoc addr target (e :: rest)).2 =
            (rewriteDoc (processElem addr target e).2 target rest).2 from rfl]
      rw [ih, processElem_addr, hsplit]
      cases hrest : (docVals rest).getLast? with
      | some v =>
          rw [List.getLast?_append_of_ne_nil _ (by
            intro hnil
            rw [hnil] at hrest
            cases hrest)]
          rw [hrest]
          cases helem : (elemVals e).getLast? <;> rfl
      | none =>
          have hnil : docVals rest = [] := by
            cases hd : docVals rest with
            | nil => rfl
            | cons a as =>
                rw [hd] at hrest
                rw [List.getLast?_eq_getLast_of_ne_nil (List.cons_ne_nil a as)] at hrest
                cases hrest
          rw [hnil, List.append_nil]

/-- C10 counterexample: in a document whose first anchor IS rewritten and
whose LAST anchor is foreign-origin (left byte-identical), `copyBody`
still mutates the proxy's shared address to the join of that last,
NON-rewritten link — `/ex/https://other.com/y` — and not to the joined
path of the last rewritten link `/ex/x`, refuting the claim's "last
rewritten link". -/
theorem c10_path_from_last_visited :
    ((rewriteDoc cAddr tEx doc10).1[0]?).bind Elem.href =
        some (str "http://localhost:8080/ex/x") ∧
    ((rewriteDoc cAddr tEx doc10).1[1]?).bind Elem.href =
        some (str "https://other.com/y") ∧
    (copyBody ser0 p0 resp10 tEx).2.addr.path = str "/ex/https://other.com/y" ∧
    ¬ (copyBody ser0 p0 resp10 tEx).2.addr.path =
        joinUrl [tEx.Prefix, goTrimPref (str "/x") tEx.BaseUrl] :=
  ⟨rfl, rfl, rfl, by decide⟩

/-- C10 amended: `copyBody` operates on the proxy's shared address (the
`url := p.addr` pointer copy), so after rewriting an HTML document in
which at least one matched attribute exists, the stored listen address's
path equals the joined path of the LAST VISITED matched attribute value
(whether or not it was rewritten), a subsequent `Addr()` renders the
address including that path, and every other field of the proxy (and of
the address) is unchanged. -/
theorem c10_addr_alias_amended (ser : List Elem → GoStr) (p : ProxyRec) (target : Target)
    (resp : Response) (doc : List Elem) (v : GoStr)
    (hct : goContains (headerGet resp.headers (str "Content-Type")) (str "text/html") = true)
    (hdoc : resp.htmlDoc = some doc)
    (hlast : (docVals doc).getLast? = some v) :
    (copyBody ser p resp target).2.addr.path =
        joinUrl [target.Prefix, goTrimPref v target.BaseUrl] ∧
    (copyBody ser p resp target).2.addr.scheme = p.addr.scheme ∧
    (copyBody ser p resp target).2.addr.host = p.addr.host ∧
    (copyBody ser p resp target).2.targets = p.targets ∧
    (copyBody ser p resp target).2.port = p.port ∧
    (copyBody ser p resp target).2.hasCert = p.hasCert ∧
    Addr (copyBody ser p resp target).2 =
      urlString { scheme := p.addr.scheme, host := p.addr.host
                  path := joinUrl [target.Prefix, goTrimPref v target.BaseUrl] } := by
  have hcb : (copyBody ser p resp target).2 =
      { p with addr := (rewriteDoc p.addr target doc).2 } := by
    rw [copyBody.eq_def, hct, hdoc]
    rfl
  rw [hcb, rewriteDoc_addr, hlast]
  exact ⟨rfl, rfl, rfl, rfl, rfl, rfl, rfl⟩

/-- C10 witness: the concrete aliasing scenario driven through the
amended theorem — afterwards `Addr()` renders
`http://localhost:8080/ex/https://other.com/y`. -/
theorem c10_addr_alias_amended_witness :
    (copyBody ser0 p0 resp10 tEx).2.addr.path =
        joinUrl [tEx.Prefix, goTrimPref (str "https://other.com/y") tEx.BaseUrl] ∧
    (copyBody ser0 p0 resp10 tEx).2.targets = p0.targets ∧
    Addr (copyBody ser0 p0 resp10 tEx).2 =
      urlString { scheme := p0.addr.scheme, host := p0.addr.host
                  path := joinUrl [tEx.Prefix, goTrimPref (str "https://other.com/y") tEx.BaseUrl] } :=
  ⟨(c10_addr_alias_amended ser0 p0 tEx resp10 doc10 (str "https://other.com/y")
      (by decide) rfl rfl).1,
   (c10_addr_alias_amended ser0 p0 tEx resp10 doc10 (str "https://other.com/y")
      (by decide) rfl rfl).2.2.2.1,
   (c10_addr_alias_amended ser0 p0 tEx resp10 doc10 (str "https://other.com/y")
      (by decide) rfl rfl).2.2.2.2.2.2⟩

end FEProxy
